import Mathlib

/-!
Verification of the orchestration and scheduling core of the
`functional_core_imperative_shell` repository, shallowly embedded in Lean.

The embedding follows `src/insert_package_name/core/orchestrator.py`,
`src/insert_package_name/core/scheduler.py`,
`src/insert_package_name/core/errors.py` and
`src/insert_package_name/schema/types.py`.

Python exceptions are modelled by the inductive `Err`; raising is modelled
by `Option Err` / `Except Err` results; log calls are modelled by an
explicit `Event` trace.  Dynamic module import (`importlib`) is modelled by
an environment `Env` mapping a domain name to its resolution outcome.
-/

set_option autoImplicit false

namespace Fcis

/-- `schema/types.py`: `ScheduleConfig` (dataclass, frozen). -/
structure ScheduleConfig where
  enabled : Bool
  cron : String
  interval : String
  day_of_week : String
  day_of_month : Nat
  hour : Nat
  minute : Nat
deriving DecidableEq, Repr

/-- `schema/types.py`: `DomainConfig`.  `inputs`/`outputs` are modelled by
their key lists (the `IOConfig` descriptors are opaque to the orchestrator;
only `.keys()` is ever consulted by it, in `_missing_io_key_error`).
`params` is never read by the orchestration core and is omitted. -/
structure DomainConfig where
  name : String
  enabled : Bool
  tags : List String
  inputs : List String
  outputs : List String
  schedule : ScheduleConfig
deriving DecidableEq, Repr

/-- `schema/types.py`: `ThreadExecutionConfig`. -/
structure ThreadExecutionConfig where
  enabled : Bool
  max_workers : Option Int
deriving DecidableEq, Repr

/-- `schema/types.py`: `ProcessExecutionConfig`. -/
structure ProcessExecutionConfig where
  enabled : Bool
  max_workers : Option Int
deriving DecidableEq, Repr

/-- `schema/types.py`: `ParallelExecutionConfig`. -/
structure ParallelExecutionConfig where
  threads : ThreadExecutionConfig
  processes : ProcessExecutionConfig
deriving DecidableEq, Repr

/-- `schema/types.py`: `ExecutionConfig`. -/
structure ExecutionConfig where
  parallel : ParallelExecutionConfig
deriving DecidableEq, Repr

/-- `schema/types.py`: `GlobalConfig`.  `domains` is a Python dict; it is
modelled as an association list in insertion order (dict keys are unique,
the model does not re-check that).  The `logging` and `inputs` fields are
never read by the orchestration core and are omitted. -/
structure GlobalConfig where
  env : String
  active_domains : List String
  active_tags : List String
  execution : ExecutionConfig
  domains : List (String × DomainConfig)
deriving DecidableEq, Repr

/-- Python exception values, at the granularity the orchestrator
distinguishes them (`core/errors.py` plus the builtin `KeyError` and a
catch-all for any other `Exception`).  `dataOther` stands for any
`DataHandlingError` subclass other than the ones named here
(e.g. `ConfigValidationError`, `IOReadError`). -/
inductive Err where
  | domainNotFound (domain : String) (message : String)
  | domainInterface (domain : String) (message : String)
  | domainExecution (domain : String) (message : String)
  | missingIOKey (domain : String) (key : String)
      (availableInputs : List String) (availableOutputs : List String)
  | dataOther (message : String)
  | keyError (key : String)
  | otherExc (message : String)
deriving DecidableEq, Repr

/-- An exception as it propagates out of `run_domains`, together with the
`__cause__` set by the orchestrator's own `raise ... from exc` (exception
chaining set inside collaborators, e.g. inside `_load_domain_runner`, is
not tracked). -/
abbrev Raised := Err × Option Err

/-- `isinstance(e, DataHandlingError)`: every error of `core/errors.py`
derives from `DataHandlingError`; the builtin `KeyError` and arbitrary
other exceptions do not. -/
def isDataHandling : Err → Bool
  | .domainNotFound _ _ => true
  | .domainInterface _ _ => true
  | .domainExecution _ _ => true
  | .missingIOKey _ _ _ _ => true
  | .dataOther _ => true
  | .keyError _ => false
  | .otherExc _ => false

/-- One log record emitted by the orchestrator (`get_domain_logger` calls).
Each constructor records the domain the record is tagged with, plus the
error being logged where applicable.  `resolverCalled` additionally marks
an invocation of `_load_domain_runner` (not itself a log line). -/
inductive Event where
  | skipDisabled (domain : String)
  | starting (domain : String)
  | resolverCalled (domain : String)
  | completed (domain : String)
  | setupError (domain : String) (e : Err)
  | dataError (domain : String) (e : Err)
  | unexpectedError (domain : String) (e : Err)
deriving DecidableEq, Repr

/-- Outcome of `importlib.import_module` plus the `hasattr(module, "run")`
check for one domain name: the module may be missing, may lack `run`, or
yields a runner.  A runner models the domain's `run` callable: `none`
means a clean return, `some e` means it raised `e`. -/
inductive ResolveOutcome where
  | moduleNotFound
  | missingRun
  | ok (runner : DomainConfig → Option Err)

/-- The dynamic-import environment: what `importlib` finds for each
domain name. -/
def Env : Type := String → ResolveOutcome

/-- `orchestrator.py` lines 22-52: `_load_domain_runner`. -/
def load_domain_runner (env : Env) (domain_name : String) :
    Except Err (DomainConfig → Option Err) :=
  match env domain_name with
  | .moduleNotFound =>
      .error (.domainNotFound domain_name "Domain pipeline module not found")
  | .missingRun =>
      .error (.domainInterface domain_name
        "Domain module is missing required 'run' function")
  | .ok runner => .ok runner

/-- Truthiness of the `allowed_domains: set[str] | None` parameter:
`None` and the empty set are falsy. -/
def truthy_allowed : Option (List String) → Bool
  | none => false
  | some l => !l.isEmpty

/-- Truthiness of `set(cfg.active_tags).intersection(domain.tags)`:
the two tag lists share at least one element. -/
def tags_intersect (tags : List String) (activeTags : List String) : Bool :=
  activeTags.any (fun t => tags.contains t)

/-- `orchestrator.py` lines 55-82: `_iter_selected_domains`. -/
def iter_selected_domains (cfg : GlobalConfig)
    (allowed_domains : Option (List String)) : List (String × DomainConfig) :=
  let s1 := cfg.domains
  let s2 := if truthy_allowed allowed_domains then
      s1.filter (fun p => (allowed_domains.getD []).contains p.1)
    else s1
  let s3 := if !cfg.active_domains.isEmpty then
      s2.filter (fun p => cfg.active_domains.contains p.1)
    else s2
  if !cfg.active_tags.isEmpty then
    s3.filter (fun p => tags_intersect p.2.tags cfg.active_tags)
  else s3

/-- Stable ascending insertion, auxiliary to `sort_strings`. -/
def insert_sorted (x : String) : List String → List String
  | [] => [x]
  | y :: ys => if x ≤ y then x :: y :: ys else y :: insert_sorted x ys

/-- Python's `sorted` on a list of strings (stable ascending insertion
sort; only the resulting order matters to the source). -/
def sort_strings : List String → List String
  | [] => []
  | x :: xs => insert_sorted x (sort_strings xs)

/-- `orchestrator.py` lines 85-93: `_missing_io_key_error`.  The `KeyError`
argument is modelled by the missing key it carries (`str(key)`); `inputs`
and `outputs` are already key lists in the model. -/
def missing_io_key_error (domain_name : String) (domain_cfg : DomainConfig)
    (key : String) : Err :=
  .missingIOKey domain_name key
    (sort_strings domain_cfg.inputs) (sort_strings domain_cfg.outputs)

/-- The `except` cascade of `run_domains` (lines 121-129), applied to an
exception `e` raised by `runner(domain_cfg)`: a `DataHandlingError` is
re-raised as is, a `KeyError` becomes a `MissingIOKeyError` chained to it,
anything else becomes a `DomainExecutionError` chained to it. -/
def classify_strict (domain_name : String) (domain_cfg : DomainConfig)
    (e : Err) : Raised :=
  if isDataHandling e then (e, none)
  else match e with
    | .keyError k => (missing_io_key_error domain_name domain_cfg k, some e)
    | _ => (.domainExecution domain_name "Domain execution failed", some e)

/-- The outcome of one loop iteration of `run_domains` for an enabled
domain: `none` when the domain resolves and runs cleanly, `some r` when
the iteration raises `r` out of `run_domains`. -/
def strict_step (env : Env) (domain_name : String)
    (domain_cfg : DomainConfig) : Option Raised :=
  match load_domain_runner env domain_name with
  | .error e => some (e, none)
  | .ok runner =>
    match runner domain_cfg with
    | none => none
    | some e => some (classify_strict domain_name domain_cfg e)

/-- The loop body of `run_domains` (lines 112-130) over an explicit list
of selected domains, returning the emitted events and the exception (if
any) propagating out. -/
def run_domains_list (env : Env) :
    List (String × DomainConfig) → List Event × Option Raised
  | [] => ([], none)
  | (domain_name, domain_cfg) :: rest =>
    if !domain_cfg.enabled then
      let r := run_domains_list env rest
      (.skipDisabled domain_name :: r.1, r.2)
    else
      match load_domain_runner env domain_name with
      | .error e =>
        ([.starting domain_name, .resolverCalled domain_name], some (e, none))
      | .ok runner =>
        match runner domain_cfg with
        | none =>
          let r := run_domains_list env rest
          ([.starting domain_name, .resolverCalled domain_name,
            .completed domain_name] ++ r.1, r.2)
        | some e =>
          ([.starting domain_name, .resolverCalled domain_name],
            some (classify_strict domain_name domain_cfg e))

/-- `orchestrator.py` lines 96-130: `run_domains` (strict mode). -/
def run_domains (env : Env) (cfg : GlobalConfig) : List Event × Option Raised :=
  run_domains_list env (iter_selected_domains cfg none)

/-- The `try` body of `_execute_domain` (lines 142-145): resolve the
runner, run it; events emitted inside the body, plus the exception (if
any) reaching the `except` cascade. -/
def execute_domain_body (env : Env) (domain_name : String)
    (domain_cfg : DomainConfig) : List Event × Option Err :=
  match load_domain_runner env domain_name with
  | .error e => ([.resolverCalled domain_name], some e)
  | .ok runner =>
    match runner domain_cfg with
    | some e => ([.resolverCalled domain_name], some e)
    | none => ([.resolverCalled domain_name, .completed domain_name], none)

/-- `orchestrator.py` lines 133-154: `_execute_domain` (isolated mode
per-domain step).  The second component is the exception propagating out
of the call. -/
def execute_domain (env : Env) (domain_name : String)
    (domain_cfg : DomainConfig) : List Event × Option Err :=
  if !domain_cfg.enabled then ([.skipDisabled domain_name], none)
  else
    let r := execute_domain_body env domain_name domain_cfg
    let evs := .starting domain_name :: r.1
    match r.2 with
    | none => (evs, none)
    | some e =>
      match e with
      | .domainNotFound _ _ => (evs ++ [.setupError domain_name e], none)
      | .domainInterface _ _ => (evs ++ [.setupError domain_name e], none)
      | .keyError k =>
        (evs ++ [.dataError domain_name
          (missing_io_key_error domain_name domain_cfg k)], none)
      | _ =>
        if isDataHandling e then (evs ++ [.dataError domain_name e], none)
        else (evs ++ [.unexpectedError domain_name e], none)

/-- Serial execution of a list of domains via `_execute_domain` (the
`for` loops at lines 163-165 and 212-214): per-domain event traces, plus
the first exception propagating out of an `_execute_domain` call (which
would abort the remaining iterations). -/
def run_serial (env : Env) :
    List (String × DomainConfig) → List (List Event) × Option Err
  | [] => ([], none)
  | (domain_name, domain_cfg) :: rest =>
    let r := execute_domain env domain_name domain_cfg
    match r.2 with
    | some e => ([r.1], some e)
    | none =>
      let rr := run_serial env rest
      (r.1 :: rr.1, rr.2)

/-- The guard of `_execute_domain_chunk` (line 159):
`thread_workers and thread_workers > 1 and len(domain_items) > 1`. -/
def uses_thread_subfanout (thread_workers : Option Int) (len : Nat) : Bool :=
  match thread_workers with
  | none => false
  | some w => (!(w == 0)) && decide (1 < w) && decide (1 < len)

/-- Result of one `_execute_domain_chunk` call: whether the thread path
was taken, the per-domain event traces, and the exception (if any)
propagating out of the call. -/
structure ChunkRun where
  usedThreads : Bool
  traces : List (List Event)
  raised : Option Err
deriving DecidableEq, Repr

/-- `orchestrator.py` lines 157-165: `_execute_domain_chunk`.  On the
thread path every domain is submitted to a `ThreadPoolExecutor`; a
submitted task's exception is captured in its (discarded) future and never
re-raised, so nothing propagates from that branch.  Interleaving of the
concurrent traces is abstracted: traces are kept per domain, in submission
order. -/
def execute_domain_chunk (env : Env) (domain_items : List (String × DomainConfig))
    (thread_workers : Option Int) : ChunkRun :=
  if uses_thread_subfanout thread_workers domain_items.length then
    ⟨true, domain_items.map (fun p => (execute_domain env p.1 p.2).1), none⟩
  else
    let r := run_serial env domain_items
    ⟨false, r.1, r.2⟩

/-- Python `range(0, stop, step)` for `step ≥ 1`: the start indices of the
slices taken by `_chunk_domains`. -/
def py_range (stop : Nat) (step : Nat) : List Nat :=
  List.range' 0 ((stop + step - 1) / step) step

/-- `os.cpu_count() or 1`: `cpu_count` may return `None`; `or 1` also maps
a (theoretically) falsy `0` to `1`. -/
def py_or_one : Option Nat → Nat
  | none => 1
  | some 0 => 1
  | some (n + 1) => n + 1

/-- `orchestrator.py` lines 168-177: `_chunk_domains`.  `cpu_count` is the
ambient `os.cpu_count()`.  The slice comprehension
`[domain_items[i : i + chunk_size] for i in range(0, len, chunk_size)]`
is rendered over `py_range`. -/
def chunk_domains (domain_items : List (String × DomainConfig))
    (max_chunks : Option Int) (cpu_count : Option Nat) :
    List (List (String × DomainConfig)) :=
  if domain_items.isEmpty then []
  else
    let mc : Int := match max_chunks with
      | none => (py_or_one cpu_count : Int)
      | some m => m
    let mcN : Nat := (max 1 mc).toNat
    let chunk_size : Nat := max 1 ((domain_items.length + mcN - 1) / mcN)
    (py_range domain_items.length chunk_size).map
      (fun i => (domain_items.drop i).take chunk_size)

/-- Which of the three concurrency branches `run_domains_safe` took. -/
inductive Strategy where
  | processes
  | threadsOnly
  | serial
deriving DecidableEq, Repr

/-- Result of one `run_domains_safe` call: branch taken, process chunks
(empty outside the process branch), per-domain event traces in selection
order (cross-worker interleaving is abstracted), and the exception (if
any) propagating out of the call. -/
structure SafeRun where
  strategy : Strategy
  chunks : List (List (String × DomainConfig))
  traces : List (List Event)
  raised : Option Err
deriving DecidableEq, Repr

/-- The `t_cfg.max_workers if t_cfg.enabled else None` argument passed to
`_execute_domain_chunk` by `run_domains_safe` (line 203). -/
def eff_thread_workers (t_cfg : ThreadExecutionConfig) : Option Int :=
  if t_cfg.enabled then t_cfg.max_workers else none

/-- `orchestrator.py` lines 180-214: `run_domains_safe`.  In the process
and thread branches, submitted futures are discarded, so a task's
exception is captured in the future and never re-raised into the caller
(`raised := none` there is the semantics of `executor.submit` + pool
join, not an assumption about `_execute_domain`). -/
def run_domains_safe (env : Env) (cfg : GlobalConfig)
    (allowed_domains : Option (List String)) (cpu_count : Option Nat) : SafeRun :=
  let selected := iter_selected_domains cfg allowed_domains
  let p_cfg := cfg.execution.parallel.processes
  let t_cfg := cfg.execution.parallel.threads
  if p_cfg.enabled && decide (1 < selected.length) then
    let chunks := chunk_domains selected p_cfg.max_workers cpu_count
    let runs := chunks.map
      (fun chunk => execute_domain_chunk env chunk (eff_thread_workers t_cfg))
    ⟨.processes, chunks, (runs.map ChunkRun.traces).flatten, none⟩
  else if t_cfg.enabled && decide (1 < selected.length) then
    ⟨.threadsOnly, [], selected.map (fun p => (execute_domain env p.1 p.2).1), none⟩
  else
    let r := run_serial env selected
    ⟨.serial, [], r.1, r.2⟩

/-- An APScheduler trigger as `scheduler.py` builds it: either
`CronTrigger.from_crontab(expr)`, or a `CronTrigger(day_of_week=…, day=…,
hour=…, minute=…)` with the keyword arguments the code actually passes
(absent keyword = `none`). -/
inductive Trigger where
  | fromCrontab (expr : String)
  | cron (day_of_week : Option Nat) (day : Option Nat) (hour : Nat) (minute : Nat)
deriving DecidableEq, Repr

/-- Python's `str.lower()`, modelled characterwise (the weekday names this
is applied to are ASCII, where per-character lowering coincides with
Python's full case mapping). -/
def py_lower (s : String) : String := ⟨s.data.map Char.toLower⟩

/-- `scheduler.py` lines 50-59: `day_map.get(sched.day_of_week.lower(), 0)`,
the dict rendered as an equality cascade on the lowercased name. -/
def weekday_num (w : String) : Nat :=
  let k := py_lower w
  if k = "monday" then 0
  else if k = "tuesday" then 1
  else if k = "wednesday" then 2
  else if k = "thursday" then 3
  else if k = "friday" then 4
  else if k = "saturday" then 5
  else if k = "sunday" then 6
  else 0

/-- `global_cfg.domains.get(domain_name)`: first-match association-list
lookup (dict keys are unique, so first-match is exact). -/
def lookup_domain : List (String × DomainConfig) → String → Option DomainConfig
  | [], _ => none
  | (k, v) :: rest, n => if k = n then some v else lookup_domain rest n

/-- `scheduler.py` lines 20-64: `_get_cron_trigger`. -/
def get_cron_trigger (domain_name : String) (global_cfg : GlobalConfig) :
    Option Trigger :=
  match lookup_domain global_cfg.domains domain_name with
  | none => none
  | some domain =>
    if !domain.schedule.enabled then none
    else
      let sched := domain.schedule
      if sched.cron ≠ "" then some (.fromCrontab sched.cron)
      else if sched.interval = "daily" then
        some (.cron none none sched.hour sched.minute)
      else if sched.interval = "weekly" then
        some (.cron (some (weekday_num sched.day_of_week)) none
          sched.hour sched.minute)
      else if sched.interval = "monthly" then
        some (.cron none (some sched.day_of_month) sched.hour sched.minute)
      else none

/-- One `scheduler.add_job` registration (`scheduler.py` lines 92-101). -/
structure Job where
  id : String
  jobName : String
  trigger : Trigger
  allowed_domains : List String
  misfire_grace_time : Nat
  coalesce : Bool
deriving DecidableEq, Repr

/-- The `add_job` call for one trigger-producing domain: job id
`domain_<name>`, display name from the config's `name` field, the job
action restricted to exactly this domain via
`allowed_domains={domain_name}`. -/
def make_job (domain_name : String) (domain_cfg : DomainConfig)
    (trigger : Trigger) : Job :=
  ⟨"domain_" ++ domain_name, "Domain: " ++ domain_cfg.name, trigger,
    [domain_name], 60, true⟩

/-- `scheduler.py` lines 67-111: `schedule_domains`.  The loop registers a
job for every domain with a trigger; with `scheduled_count == 0` a
`ValueError` is raised before the scheduler is ever started (`.error`),
otherwise the configured scheduler — identified by its registered jobs in
registration order — is returned. -/
def schedule_domains (global_cfg : GlobalConfig) : Except String (List Job) :=
  let jobs := global_cfg.domains.filterMap
    (fun p => (get_cron_trigger p.1 global_cfg).map (make_job p.1 p.2))
  if jobs.length = 0 then
    .error "No domains with schedules enabled found in config"
  else .ok jobs

/-- Whether an event is one of the three `logger.error` records
`_execute_domain` emits for a failure of domain `n` (`setupError` for
`Domain setup error`, `dataError` for `Data handling error`,
`unexpectedError` for `Unexpected error during domain execution`): each
carries the failing domain's name and the failure category. -/
def is_failure_event_for (n : String) : Event → Bool
  | .setupError m _ => m == n
  | .dataError m _ => m == n
  | .unexpectedError m _ => m == n
  | _ => false

/-- A trace records a per-domain failure of domain `n`. -/
def logs_failure (n : String) (trace : List Event) : Bool :=
  trace.any (is_failure_event_for n)

/-- The events one iteration of the `run_domains` loop emits for a domain
that does not abort the batch: skipped when disabled, otherwise started,
resolved and completed. -/
def strict_events_ok (p : String × DomainConfig) : List Event :=
  if !p.2.enabled then [.skipDisabled p.1]
  else [.starting p.1, .resolverCalled p.1, .completed p.1]

/-! ### Concrete fixtures (used by witnesses and counterexamples) -/

/-- A disabled schedule (the `ScheduleConfig` defaults). -/
def sched_off : ScheduleConfig := ⟨false, "", "", "monday", 1, 0, 0⟩

/-- An enabled weekly schedule without an explicit cron expression. -/
def sched_weekly : ScheduleConfig := ⟨true, "", "weekly", "Wednesday", 1, 9, 0⟩

/-- An enabled domain tagged `t1`. -/
def domain_a : DomainConfig := ⟨"A", true, ["t1"], [], [], sched_off⟩

/-- An enabled domain tagged `t2`. -/
def domain_b : DomainConfig := ⟨"B", true, ["t2"], [], [], sched_off⟩

/-- A disabled domain tagged `t1`. -/
def domain_off : DomainConfig := ⟨"C", false, ["t1"], [], [], sched_off⟩

/-- An enabled domain with the weekly schedule. -/
def domain_sched : DomainConfig := ⟨"S", true, [], [], [], sched_weekly⟩

/-- Serial execution: neither threads nor processes enabled. -/
def exec_serial : ExecutionConfig := ⟨⟨⟨false, none⟩, ⟨false, none⟩⟩⟩

/-- Threads enabled but `max_workers` left `None` (the dataclass default). -/
def tcfg_threads_nomax : ThreadExecutionConfig := ⟨true, none⟩

/-- Two enabled domains, no filters, serial execution. -/
def cfg_two : GlobalConfig :=
  ⟨"dev", [], [], exec_serial, [("a", domain_a), ("b", domain_b)]⟩

/-- Three domains with an `active_tags` filter selecting tag `t1`. -/
def cfg_tags : GlobalConfig :=
  ⟨"dev", [], ["t1"], exec_serial,
    [("a", domain_a), ("b", domain_b), ("c", domain_off)]⟩

/-- A disabled domain followed by an enabled one, no filters. -/
def cfg_disabled : GlobalConfig :=
  ⟨"dev", [], [], exec_serial, [("c", domain_off), ("b", domain_b)]⟩

/-- A single enabled domain, no filters. -/
def cfg_key : GlobalConfig := ⟨"dev", [], [], exec_serial, [("a", domain_a)]⟩

/-- One domain with an enabled weekly schedule, one without. -/
def cfg_sched : GlobalConfig :=
  ⟨"dev", [], [], exec_serial, [("s", domain_sched), ("a", domain_a)]⟩

/-- Every domain resolves and its runner returns cleanly. -/
def env_ok : Env := fun _ => .ok (fun _ => none)

/-- Domain `a`'s runner raises a plain `Exception`; every other domain
succeeds. -/
def env_boom_a : Env :=
  fun s => if s = "a" then .ok (fun _ => some (.otherExc "boom"))
    else .ok (fun _ => none)

/-- Domain `a`'s runner raises `KeyError("k")`; every other domain
succeeds. -/
def env_key_a : Env :=
  fun s => if s = "a" then .ok (fun _ => some (.keyError "k"))
    else .ok (fun _ => none)

/-- A three-element selection list. -/
def items_three : List (String × DomainConfig) :=
  [("a", domain_a), ("b", domain_b), ("c", domain_off)]

/-! ### Helper lemmas: isolated-mode per-domain step -/

theorem execute_domain_raised_none (env : Env) (n : String) (d : DomainConfig) :
    (execute_domain env n d).2 = none := by
  unfold execute_domain
  split
  · rfl
  · dsimp only
    split
    · rfl
    · split <;> first | rfl | (split <;> rfl)

theorem run_serial_eq (env : Env) (items : List (String × DomainConfig)) :
    run_serial env items
      = (items.map (fun p => (execute_domain env p.1 p.2).1), none) := by
  induction items with
  | nil => rfl
  | cons p rest ih =>
    obtain ⟨n, d⟩ := p
    simp only [run_serial, execute_domain_raised_none, ih, List.map_cons]

theorem execute_domain_chunk_eq (env : Env)
    (items : List (String × DomainConfig)) (tw : Option Int) :
    execute_domain_chunk env items tw
      = ⟨uses_thread_subfanout tw items.length,
         items.map (fun p => (execute_domain env p.1 p.2).1), none⟩ := by
  unfold execute_domain_chunk
  split
  · next h => rw [h]
  · next h =>
    rw [run_serial_eq]
    simp only [Bool.not_eq_true] at h
    rw [h]

/-! ### Helper lemmas: chunking arithmetic -/

theorem le_ceil_mul (a b : Nat) (hb : 0 < b) : a ≤ ((a + b - 1) / b) * b := by
  have h1 := Nat.div_add_mod (a + b - 1) b
  have h2 : (a + b - 1) % b < b := Nat.mod_lt _ hb
  rw [Nat.mul_comm]
  omega

theorem map_range'_shift {β : Type} (f : Nat → β) (d k : Nat) :
    ∀ (n s : Nat), (List.range' (s + d) n k).map f
      = (List.range' s n k).map (fun i => f (i + d)) := by
  intro n
  induction n with
  | zero => intro s; rfl
  | succ n ih =>
    intro s
    simp only [List.range'_succ, List.map_cons]
    refine congrArg₂ _ (by rw [Nat.add_comm s d]) ?_
    have hsd : s + d + k = s + k + d := by omega
    rw [hsd]
    exact ih (s + k)

theorem flatten_slices {α : Type} (k : Nat) :
    ∀ (n : Nat) (xs : List α), xs.length ≤ n * k →
      ((List.range' 0 n k).map (fun i => (xs.drop i).take k)).flatten = xs := by
  intro n
  induction n with
  | zero =>
    intro xs h
    simp only [Nat.zero_mul, Nat.le_zero] at h
    simp [List.eq_nil_of_length_eq_zero h]
  | succ n ih =>
    intro xs h
    simp only [List.range'_succ, List.map_cons, List.flatten_cons, List.drop_zero]
    have hshift := map_range'_shift (fun i => (xs.drop i).take k) k k n 0
    rw [hshift]
    have hdd : ∀ i : Nat, xs.drop (i + k) = (xs.drop k).drop i := by
      intro i
      rw [List.drop_drop, Nat.add_comm]
    have hcong : ((List.range' 0 n k).map (fun i => (xs.drop (i + k)).take k))
        = (List.range' 0 n k).map (fun i => ((xs.drop k).drop i).take k) := by
      refine List.map_congr_left ?_
      intro i _
      rw [hdd i]
    rw [Nat.succ_mul] at h
    rw [hcong, ih (xs.drop k) (by simp only [List.length_drop]; omega)]
    exact List.take_append_drop k xs

theorem chunk_domains_flatten (items : List (String × DomainConfig))
    (mc : Option Int) (cpu : Option Nat) :
    (chunk_domains items mc cpu).flatten = items := by
  unfold chunk_domains py_range
  split
  · next h =>
    simp only [List.isEmpty_iff] at h
    simp [h]
  · dsimp only
    apply flatten_slices
    apply le_ceil_mul
    exact Nat.lt_of_lt_of_le Nat.zero_lt_one (Nat.le_max_left _ _)

theorem getElem?_slices {α : Type} (xs : List α) (n k i : Nat) (c : List α)
    (h : ((List.range' 0 n k).map (fun j => (xs.drop j).take k))[i]? = some c) :
    c = (xs.drop (k * i)).take k := by
  rw [List.getElem?_map] at h
  have hi : i < n := by
    by_contra hge
    rw [List.getElem?_eq_none (by simpa using Nat.le_of_not_lt hge)] at h
    exact Option.noConfusion h
  rw [List.getElem?_range' 0 k hi] at h
  simp only [Option.map_some', Option.some.injEq, Nat.zero_add] at h
  exact h.symm

theorem chunk_domains_ne_nil (items : List (String × DomainConfig))
    (mc : Option Int) (cpu : Option Nat) :
    ∀ c ∈ chunk_domains items mc cpu, c ≠ [] := by
  unfold chunk_domains py_range
  split
  · simp
  · next hne =>
    dsimp only
    intro c hc
    rw [List.mem_map] at hc
    obtain ⟨i, hi, hslice⟩ := hc
    rw [List.mem_range'] at hi
    obtain ⟨j, hj, rfl⟩ := hi
    set mcN : Nat :=
      (max 1 (match mc with
        | none => (py_or_one cpu : Int)
        | some m => m)).toNat with hmcN
    set cs : Nat := max 1 ((items.length + mcN - 1) / mcN) with hcs
    have hcs1 : 1 ≤ cs := Nat.le_max_left _ _
    have hlen : 0 < items.length := by
      cases items with
      | nil => simp at hne
      | cons a l => simp
    -- the slice start index 0 + cs * j is below the list length
    have hstart : 0 + cs * j < items.length := by
      have hkey := Nat.div_mul_le_self (items.length + cs - 1) cs
      obtain ⟨q, hq⟩ : ∃ q, (items.length + cs - 1) / cs = q + 1 :=
        ⟨(items.length + cs - 1) / cs - 1, by omega⟩
      rw [hq] at hkey hj
      have hmono : cs * j ≤ cs * q := Nat.mul_le_mul_left cs (by omega)
      have hms : (q + 1) * cs = q * cs + cs := Nat.succ_mul q cs
      have hqc : cs * q = q * cs := Nat.mul_comm cs q
      omega
    subst hslice
    have hdrop : 0 < (items.drop (0 + cs * j)).length := by
      rw [List.length_drop]
      omega
    have : 0 < ((items.drop (0 + cs * j)).take cs).length := by
      rw [List.length_take]
      omega
    exact List.ne_nil_of_length_pos this

theorem chunk_domains_count_le (items : List (String × DomainConfig))
    (m : Int) (cpu : Option Nat) :
    (chunk_domains items (some m) cpu).length ≤ (max 1 m).toNat := by
  unfold chunk_domains py_range
  split
  · simp
  · next hne =>
    dsimp only
    rw [List.length_map, List.length_range']
    set mcN : Nat := (max 1 m).toNat with hmcN
    have hmcN1 : 1 ≤ mcN := by
      rw [hmcN]
      have : (1 : Int) ≤ max 1 m := Int.le_max_left _ _
      omega
    set c0 : Nat := (items.length + mcN - 1) / mcN with hc0
    set cs : Nat := max 1 c0 with hcsdef
    have hcs1 : 1 ≤ cs := Nat.le_max_left _ _
    have h1 : items.length ≤ c0 * mcN := le_ceil_mul _ _ (by omega)
    have h2 : c0 * mcN ≤ cs * mcN :=
      Nat.mul_le_mul_right mcN (Nat.le_max_right _ _)
    have hlen : items.length ≤ cs * mcN := Nat.le_trans h1 h2
    rw [Nat.div_le_iff_le_mul_add_pred (by omega)]
    omega

/-! ### Helper lemmas: `run_domains_safe` -/

theorem run_domains_safe_components (env : Env) (cfg : GlobalConfig)
    (allowed : Option (List String)) (cpu : Option Nat) :
    (run_domains_safe env cfg allowed cpu).raised = none ∧
    (run_domains_safe env cfg allowed cpu).traces
      = (iter_selected_domains cfg allowed).map
          (fun p => (execute_domain env p.1 p.2).1) := by
  unfold run_domains_safe
  dsimp only
  split
  · refine ⟨rfl, ?_⟩
    dsimp only
    have hchunk : ∀ ch, (execute_domain_chunk env ch
        (eff_thread_workers cfg.execution.parallel.threads)).traces
        = ch.map (fun p => (execute_domain env p.1 p.2).1) := by
      intro ch
      rw [execute_domain_chunk_eq]
    rw [List.map_map]
    have hcomp : (ChunkRun.traces ∘ fun chunk =>
        execute_domain_chunk env chunk
          (eff_thread_workers cfg.execution.parallel.threads))
        = fun ch => ch.map (fun p => (execute_domain env p.1 p.2).1) := by
      funext ch
      exact hchunk ch
    rw [hcomp, ← List.map_flatten, chunk_domains_flatten]
  · split
    · exact ⟨rfl, rfl⟩
    · rw [run_serial_eq]
      exact ⟨rfl, rfl⟩

/-! ### Helper lemmas: strict mode -/

theorem strict_step_none_elim (env : Env) (n : String) (d : DomainConfig)
    (h : strict_step env n d = none) :
    ∃ runner, load_domain_runner env n = .ok runner ∧ runner d = none := by
  unfold strict_step at h
  cases hl : load_domain_runner env n with
  | error e => rw [hl] at h; exact Option.noConfusion h
  | ok runner =>
    rw [hl] at h
    dsimp only at h
    cases hr : runner d with
    | none => exact ⟨runner, rfl, hr⟩
    | some e => rw [hr] at h; exact Option.noConfusion h

theorem run_domains_list_cons_skip (env : Env) (n : String) (d : DomainConfig)
    (rest : List (String × DomainConfig)) (hd : d.enabled = false) :
    run_domains_list env ((n, d) :: rest)
      = (.skipDisabled n :: (run_domains_list env rest).1,
         (run_domains_list env rest).2) := by
  simp [run_domains_list, hd]

theorem run_domains_list_cons_ok (env : Env) (n : String) (d : DomainConfig)
    (rest : List (String × DomainConfig)) (runner : DomainConfig → Option Err)
    (hd : d.enabled = true) (hl : load_domain_runner env n = .ok runner)
    (hr : runner d = none) :
    run_domains_list env ((n, d) :: rest)
      = ([.starting n, .resolverCalled n, .completed n]
           ++ (run_domains_list env rest).1,
         (run_domains_list env rest).2) := by
  simp [run_domains_list, hd, hl, hr]

theorem run_domains_list_cons_fail (env : Env) (n : String) (d : DomainConfig)
    (rest : List (String × DomainConfig)) (r : Raised)
    (hd : d.enabled = true) (hfail : strict_step env n d = some r) :
    run_domains_list env ((n, d) :: rest)
      = ([.starting n, .resolverCalled n], some r) := by
  unfold strict_step at hfail
  cases hl : load_domain_runner env n with
  | error e =>
    rw [hl] at hfail
    simp only [Option.some.injEq] at hfail
    simp [run_domains_list, hd, hl, hfail]
  | ok runner =>
    rw [hl] at hfail
    dsimp only at hfail
    cases hr : runner d with
    | none => rw [hr] at hfail; exact Option.noConfusion hfail
    | some e =>
      rw [hr] at hfail
      simp only [Option.some.injEq] at hfail
      simp [run_domains_list, hd, hl, hr, hfail]

theorem run_domains_list_abort (env : Env) (n : String) (d : DomainConfig)
    (r : Raised) (hen : d.enabled = true) (hfail : strict_step env n d = some r) :
    ∀ (pre : List (String × DomainConfig)),
      (∀ p ∈ pre, p.2.enabled = false ∨ strict_step env p.1 p.2 = none) →
      ∀ post, run_domains_list env (pre ++ (n, d) :: post)
        = ((pre.map strict_events_ok).flatten
             ++ [.starting n, .resolverCalled n], some r) := by
  intro pre
  induction pre with
  | nil =>
    intro _ post
    simpa using run_domains_list_cons_fail env n d post r hen hfail
  | cons p pre ih =>
    intro hpre post
    obtain ⟨pn, pd⟩ := p
    have hrec := ih (fun q hq => hpre q (List.mem_cons_of_mem _ hq)) post
    rcases hpre (pn, pd) (List.mem_cons_self _ _) with hoff | hstep
    · have hoff' : pd.enabled = false := hoff
      rw [List.cons_append, run_domains_list_cons_skip env pn pd _ hoff', hrec]
      simp [strict_events_ok, hoff']
    · by_cases hpen : pd.enabled = true
      · obtain ⟨runner, hl, hr⟩ := strict_step_none_elim env pn pd hstep
        rw [List.cons_append,
          run_domains_list_cons_ok env pn pd _ runner hpen hl hr, hrec]
        simp [strict_events_ok, hpen]
      · have hoff : pd.enabled = false := by simpa using hpen
        rw [List.cons_append, run_domains_list_cons_skip env pn pd _ hoff, hrec]
        simp [strict_events_ok, hoff]

theorem resolver_called_mem (env : Env) :
    ∀ (items : List (String × DomainConfig)) (m : String),
      Event.resolverCalled m ∈ (run_domains_list env items).1 →
      ∃ c, (m, c) ∈ items ∧ c.enabled = true := by
  intro items
  induction items with
  | nil => intro m h; simp [run_domains_list] at h
  | cons p rest ih =>
    intro m h
    obtain ⟨n, d⟩ := p
    by_cases hd : d.enabled = true
    · rcases hs : strict_step env n d with _ | r
      · obtain ⟨runner, hl, hr⟩ := strict_step_none_elim env n d hs
        rw [run_domains_list_cons_ok env n d rest runner hd hl hr] at h
        simp only [List.cons_append, List.nil_append, List.mem_cons] at h
        rcases h with h | h | h | h
        · exact absurd h (by simp)
        · obtain rfl : m = n := by
            simpa using h
          exact ⟨d, List.mem_cons_self _ _, hd⟩
        · exact absurd h (by simp)
        · obtain ⟨c, hc, hcen⟩ := ih m h
          exact ⟨c, List.mem_cons_of_mem _ hc, hcen⟩
      · rw [run_domains_list_cons_fail env n d rest r hd hs] at h
        simp only [List.mem_cons, List.mem_singleton] at h
        rcases h with h | h | h
        · exact absurd h (by simp)
        · obtain rfl : m = n := by
            simpa using h
          exact ⟨d, List.mem_cons_self _ _, hd⟩
        · simp at h
    · have hoff : d.enabled = false := by simpa using hd
      rw [run_domains_list_cons_skip env n d rest hoff] at h
      simp only [List.mem_cons] at h
      rcases h with h | h
      · exact absurd h (by simp)
      · obtain ⟨c, hc, hcen⟩ := ih m h
        exact ⟨c, List.mem_cons_of_mem _ hc, hcen⟩

theorem length_filterMap_eq_length_filter {α β : Type} (f : α → Option β) :
    ∀ l : List α, (l.filterMap f).length = (l.filter (fun a => (f a).isSome)).length := by
  intro l
  induction l with
  | nil => rfl
  | cons a l ih =>
    cases hfa : f a with
    | none => simp [List.filterMap_cons, List.filter_cons, hfa, ih]
    | some b => simp [List.filterMap_cons, List.filter_cons, hfa, ih]

theorem execute_domain_logs_failure (env : Env) (n : String)
    (d : DomainConfig) (e : Err) (hd : d.enabled = true)
    (hb : (execute_domain_body env n d).2 = some e) :
    logs_failure n (execute_domain env n d).1 = true := by
  unfold execute_domain
  rw [hd]
  dsimp only [Bool.not_true]
  rw [hb]
  cases e <;>
    simp [logs_failure, is_failure_event_for, List.any_append, isDataHandling]

/-! ### Claim theorems -/

/-- C1: In isolated mode (`run_domains_safe` / `_execute_domain`), for
every environment, configuration and domain selection, no exception raised
while resolving or running an individual domain propagates out of the
call: the call returns normally, each selected domain contributes exactly
its own `_execute_domain` trace, `_execute_domain` itself never lets an
exception escape, and every per-domain failure is logged with an event
identifying the failing domain and its category. -/
theorem claim_c1_isolated_never_propagates (env : Env) (cfg : GlobalConfig)
    (allowed : Option (List String)) (cpu : Option Nat) :
    (run_domains_safe env cfg allowed cpu).raised = none ∧
    (run_domains_safe env cfg allowed cpu).traces
      = (iter_selected_domains cfg allowed).map
          (fun p => (execute_domain env p.1 p.2).1) ∧
    (∀ (n : String) (d : DomainConfig), (execute_domain env n d).2 = none) ∧
    (∀ (n : String) (d : DomainConfig) (e : Err), d.enabled = true →
      (execute_domain_body env n d).2 = some e →
      logs_failure n (execute_domain env n d).1 = true) :=
  ⟨(run_domains_safe_components env cfg allowed cpu).1,
   (run_domains_safe_components env cfg allowed cpu).2,
   fun n d => execute_domain_raised_none env n d,
   fun n d e hd hb => execute_domain_logs_failure env n d e hd hb⟩

/-- C1 witness: domain `a` raises, domain `b` succeeds; the batch returns
normally and `a`'s failure is logged. -/
theorem claim_c1_witness :
    (run_domains_safe env_boom_a cfg_two none (some 2)).raised = none ∧
    logs_failure "a" (execute_domain env_boom_a "a" domain_a).1 = true :=
  ⟨(claim_c1_isolated_never_propagates env_boom_a cfg_two none (some 2)).1,
   (claim_c1_isolated_never_propagates env_boom_a cfg_two none (some 2)).2.2.2
     "a" domain_a (.otherExc "boom") (by decide) (by decide)⟩

/-- C3: for every selection list and every `max_chunks ≥ 1`,
`_chunk_domains` partitions totally and without overlap: the
concatenation of the chunks reproduces the input, and chunk `i` is the
contiguous slice of length `chunk_size = ceil(total/chunk_count)`
starting at index `i * chunk_size`. -/
theorem claim_c3_chunking_partitions (items : List (String × DomainConfig))
    (m : Int) (hm : 1 ≤ m) (cpu : Option Nat) :
    (chunk_domains items (some m) cpu).flatten = items ∧
    ∀ (i : Nat) (c : List (String × DomainConfig)),
      (chunk_domains items (some m) cpu)[i]? = some c →
      c = (items.drop
            ((max 1 ((items.length + m.toNat - 1) / m.toNat)) * i)).take
          (max 1 ((items.length + m.toNat - 1) / m.toNat)) := by
  constructor
  · exact chunk_domains_flatten items (some m) cpu
  · intro i c h
    unfold chunk_domains py_range at h
    split at h
    · simp at h
    · dsimp only at h
      rw [max_eq_right hm] at h
      exact getElem?_slices items _ _ i c h

/-- C3 witness: three domains into two chunks. -/
theorem claim_c3_witness :
    (1 : Int) ≤ 2 ∧
    (chunk_domains items_three (some 2) none).flatten = items_three ∧
    [("a", domain_a), ("b", domain_b)]
      = (items_three.drop
          ((max 1 ((items_three.length + (2 : Int).toNat - 1) / (2 : Int).toNat)) * 0)).take
        (max 1 ((items_three.length + (2 : Int).toNat - 1) / (2 : Int).toNat)) :=
  ⟨by decide,
   (claim_c3_chunking_partitions items_three 2 (by decide) none).1,
   (claim_c3_chunking_partitions items_three 2 (by decide) none).2 0
     [("a", domain_a), ("b", domain_b)] (by decide)⟩

/-- C9: every chunk `_chunk_domains` returns is non-empty (for any
`max_chunks`, including `None`); with an explicit integer `max_chunks`
the number of chunks never exceeds `max(1, max_chunks)`; the empty input
yields no chunks. -/
theorem claim_c9_chunk_invariants (items : List (String × DomainConfig))
    (mc : Option Int) (cpu : Option Nat) :
    (∀ c ∈ chunk_domains items mc cpu, c ≠ []) ∧
    (∀ m : Int, mc = some m →
      (chunk_domains items mc cpu).length ≤ (max 1 m).toNat) ∧
    chunk_domains [] mc cpu = [] :=
  ⟨chunk_domains_ne_nil items mc cpu,
   fun m hm => by rw [hm]; exact chunk_domains_count_le items m cpu,
   rfl⟩

/-- C9 witness: three domains, `max_chunks = 2`. -/
theorem claim_c9_witness :
    [("a", domain_a), ("b", domain_b)] ≠ ([] : List (String × DomainConfig)) ∧
    (chunk_domains items_three (some 2) none).length ≤ (max 1 (2 : Int)).toNat :=
  ⟨(claim_c9_chunk_invariants items_three (some 2) none).1
      [("a", domain_a), ("b", domain_b)] (by decide),
   (claim_c9_chunk_invariants items_three (some 2) none).2.1 2 rfl⟩

/-- C4 counterexample: with `threads.enabled = true` but
`threads.max_workers = None` (the dataclass default) a two-domain chunk is
executed serially, not as a thread sub-fan-out — refuting "the thread path
is taken regardless of the value of threads.max_workers". -/
theorem claim_c4_counterexample :
    tcfg_threads_nomax.enabled = true ∧
    1 < ([("a", domain_a), ("b", domain_b)]
          : List (String × DomainConfig)).length ∧
    (execute_domain_chunk env_ok [("a", domain_a), ("b", domain_b)]
        (eff_thread_workers tcfg_threads_nomax)).usedThreads = false := by
  refine ⟨rfl, by decide, by decide⟩

/-- C4 (amended): within a worker process the chunk is executed as a
thread sub-fan-out iff `threads.enabled` is true, `threads.max_workers`
is a set value greater than 1, and the chunk has more than one domain;
otherwise it is executed serially within that process. -/
theorem claim_c4_thread_subfanout_condition (env : Env)
    (t_cfg : ThreadExecutionConfig) (chunk : List (String × DomainConfig)) :
    ((execute_domain_chunk env chunk (eff_thread_workers t_cfg)).usedThreads
        = true
      ↔ (t_cfg.enabled = true ∧
          (∃ w : Int, t_cfg.max_workers = some w ∧ 1 < w) ∧
          1 < chunk.length)) ∧
    (uses_thread_subfanout (eff_thread_workers t_cfg) chunk.length = false →
      (execute_domain_chunk env chunk (eff_thread_workers t_cfg)).traces
        = (run_serial env chunk).1) := by
  constructor
  · rw [execute_domain_chunk_eq]
    dsimp only
    unfold uses_thread_subfanout eff_thread_workers
    cases ht : t_cfg.enabled
    · simp
    · cases hw : t_cfg.max_workers with
      | none => simp
      | some w =>
        simp only [if_true, Bool.and_eq_true, decide_eq_true_eq,
          Bool.not_eq_true', beq_eq_false_iff_ne, ne_eq, Option.some.injEq]
        constructor
        · rintro ⟨⟨_, hw1⟩, hlen⟩
          exact ⟨trivial, ⟨w, rfl, hw1⟩, hlen⟩
        · rintro ⟨_, ⟨w', hww', hw1⟩, hlen⟩
          obtain rfl : w = w' := hww'
          exact ⟨⟨by omega, hw1⟩, hlen⟩
  · intro h
    rw [execute_domain_chunk_eq, run_serial_eq]

/-- C10: passing `allowed_domains` as the empty set skips the
allowed-domains filter entirely — selection and `run_domains_safe` behave
exactly as with `allowed_domains = None`. -/
theorem claim_c10_empty_allowed_noop (env : Env) (cfg : GlobalConfig)
    (cpu : Option Nat) :
    iter_selected_domains cfg (some []) = iter_selected_domains cfg none ∧
    run_domains_safe env cfg (some []) cpu
      = run_domains_safe env cfg none cpu := by
  have hsel : iter_selected_domains cfg (some [])
      = iter_selected_domains cfg none := rfl
  refine ⟨hsel, ?_⟩
  unfold run_domains_safe
  rw [hsel]

/-- C2 counterexample: a runner raising `KeyError("k")` is re-raised as a
`MissingIOKeyError` — which is neither the original error propagating
unwrapped (the `KeyError` is not a taxonomy error) nor a
`DomainExecutionError` wrapper, refuting the claim's two-way split of
strict-mode re-raising. -/
theorem claim_c2_counterexample :
    (run_domains env_key_a cfg_key).2
      = some (.missingIOKey "a" "k" [] [], some (.keyError "k")) ∧
    isDataHandling (.keyError "k") = false ∧
    (Err.missingIOKey "a" "k" [] []) ≠ .keyError "k" ∧
    (Err.missingIOKey "a" "k" [] [])
      ≠ .domainExecution "a" "Domain execution failed" := by
  refine ⟨by decide, rfl, by decide, by decide⟩

/-- C2 (amended): in strict mode (`run_domains`) domains run one at a time
in selection order and the first failure aborts the batch immediately —
the emitted events are exactly those of the preceding domains plus the
start of the failing one, so no subsequent domain is executed — and the
failure is re-raised as a `DomainExecutionError` preserving the original
cause, except that known taxonomy errors (`DataHandlingError` and its
subclasses, including `DomainNotFoundError` and `DomainInterfaceError`)
propagate unwrapped and a `KeyError` is translated to a
`MissingIOKeyError` (itself a taxonomy error) chained to it. -/
theorem claim_c2_strict_abort (env : Env) (cfg : GlobalConfig)
    (pre post : List (String × DomainConfig)) (n : String) (d : DomainConfig)
    (r : Raised)
    (hsel : iter_selected_domains cfg none = pre ++ (n, d) :: post)
    (hpre : ∀ p ∈ pre, p.2.enabled = false ∨ strict_step env p.1 p.2 = none)
    (hen : d.enabled = true)
    (hfail : strict_step env n d = some r) :
    run_domains env cfg
      = ((pre.map strict_events_ok).flatten
           ++ [.starting n, .resolverCalled n], some r) ∧
    (∀ e, load_domain_runner env n = .error e →
      r = (e, none) ∧ isDataHandling e = true) ∧
    (∀ (runner : DomainConfig → Option Err) (e : Err),
      load_domain_runner env n = .ok runner → runner d = some e →
      (isDataHandling e = true → r = (e, none)) ∧
      (∀ k, e = .keyError k → r = (missing_io_key_error n d k, some e)) ∧
      (isDataHandling e = false → (∀ k, e ≠ .keyError k) →
        r = (.domainExecution n "Domain execution failed", some e))) := by
  refine ⟨?_, ?_, ?_⟩
  · unfold run_domains
    rw [hsel]
    exact run_domains_list_abort env n d r hen hfail pre hpre post
  · intro e hl
    unfold strict_step at hfail
    rw [hl] at hfail
    simp only [Option.some.injEq] at hfail
    refine ⟨hfail.symm, ?_⟩
    unfold load_domain_runner at hl
    cases henv : env n
    · rw [henv] at hl
      simp only [Except.error.injEq] at hl
      rw [← hl]
      rfl
    · rw [henv] at hl
      simp only [Except.error.injEq] at hl
      rw [← hl]
      rfl
    · rw [henv] at hl
      exact Except.noConfusion hl
  · intro runner e hl hr
    unfold strict_step at hfail
    rw [hl] at hfail
    dsimp only at hfail
    rw [hr] at hfail
    simp only [Option.some.injEq] at hfail
    refine ⟨?_, ?_, ?_⟩
    · intro hdh
      rw [← hfail]
      unfold classify_strict
      rw [if_pos hdh]
    · intro k hk
      subst hk
      rw [← hfail]
      rfl
    · intro hnd hnk
      rw [← hfail]
      unfold classify_strict
      rw [if_neg (by rw [hnd]; exact Bool.false_ne_true)]
      cases e <;> first
        | rfl
        | exact absurd rfl (hnk _)

/-- C2 witness: a plain runner exception aborts the two-domain batch at
the first domain; domain `b` never starts, and the raised error is a
`DomainExecutionError` with the original cause attached. -/
theorem claim_c2_witness :
    run_domains env_boom_a cfg_two
      = ([.starting "a", .resolverCalled "a"],
         some (.domainExecution "a" "Domain execution failed",
               some (.otherExc "boom"))) :=
  (claim_c2_strict_abort env_boom_a cfg_two [] [("b", domain_b)] "a" domain_a
      (.domainExecution "a" "Domain execution failed", some (.otherExc "boom"))
      (by decide) (by simp) (by decide) (by decide)).1

/-- C5: with empty `active_domains` and no `allowed_domains` override, a
non-empty `active_tags` filter selects exactly the domains whose tag set
has a non-empty intersection with it. -/
theorem claim_c5_tag_selection (cfg : GlobalConfig)
    (hAD : cfg.active_domains = []) (hT : cfg.active_tags ≠ []) :
    iter_selected_domains cfg none
      = cfg.domains.filter (fun p => tags_intersect p.2.tags cfg.active_tags) ∧
    ∀ (n : String) (d : DomainConfig),
      ((n, d) ∈ iter_selected_domains cfg none
        ↔ (n, d) ∈ cfg.domains ∧ ∃ t, t ∈ d.tags ∧ t ∈ cfg.active_tags) := by
  have hTe : cfg.active_tags.isEmpty = false := by
    cases htags : cfg.active_tags with
    | nil => exact absurd htags hT
    | cons a l => rfl
  have heq : iter_selected_domains cfg none
      = cfg.domains.filter (fun p => tags_intersect p.2.tags cfg.active_tags) := by
    unfold iter_selected_domains truthy_allowed
    rw [hAD]
    simp [hTe]
  refine ⟨heq, ?_⟩
  intro n d
  rw [heq, List.mem_filter]
  have htags : tags_intersect d.tags cfg.active_tags = true
      ↔ ∃ t, t ∈ d.tags ∧ t ∈ cfg.active_tags := by
    unfold tags_intersect
    rw [List.any_eq_true]
    constructor
    · rintro ⟨t, htT, hc⟩
      exact ⟨t, (List.elem_iff).mp hc, htT⟩
    · rintro ⟨t, htd, htT⟩
      exact ⟨t, htT, (List.elem_iff).mpr htd⟩
  exact and_congr Iff.rfl htags

/-- C5 witness: tag `t1` selects domains `a` and `c` from `cfg_tags`. -/
theorem claim_c5_witness :
    iter_selected_domains cfg_tags none
      = cfg_tags.domains.filter
          (fun p => tags_intersect p.2.tags cfg_tags.active_tags) ∧
    (("a", domain_a) ∈ iter_selected_domains cfg_tags none
      ↔ ("a", domain_a) ∈ cfg_tags.domains
        ∧ ∃ t, t ∈ domain_a.tags ∧ t ∈ cfg_tags.active_tags) :=
  ⟨(claim_c5_tag_selection cfg_tags rfl (by decide)).1,
   (claim_c5_tag_selection cfg_tags rfl (by decide)).2 "a" domain_a⟩

/-- C6: a disabled domain is never passed to the runner resolver in either
mode — `_execute_domain` only logs it as skipped and returns, the strict
loop logs it as skipped and continues with the next domain, and any
resolver invocation recorded by `run_domains` belongs to an enabled
selected domain. -/
theorem claim_c6_disabled_skipped (env : Env) (cfg : GlobalConfig)
    (n : String) (d : DomainConfig) (rest : List (String × DomainConfig)) :
    (d.enabled = false → execute_domain env n d = ([.skipDisabled n], none)) ∧
    (d.enabled = false →
      run_domains_list env ((n, d) :: rest)
        = (.skipDisabled n :: (run_domains_list env rest).1,
           (run_domains_list env rest).2)) ∧
    (Event.resolverCalled n ∈ (run_domains env cfg).1 →
      ∃ c, (n, c) ∈ iter_selected_domains cfg none ∧ c.enabled = true) := by
  refine ⟨?_, fun h => run_domains_list_cons_skip env n d rest h, ?_⟩
  · intro h
    simp [execute_domain, h]
  · exact fun h => resolver_called_mem env _ n h

/-- C6 witness: the disabled domain `c` is skipped (in both modes) and the
batch continues with domain `b`. -/
theorem claim_c6_witness :
    execute_domain env_ok "c" domain_off = ([.skipDisabled "c"], none) ∧
    run_domains_list env_ok [("c", domain_off), ("b", domain_b)]
      = (.skipDisabled "c" :: (run_domains_list env_ok [("b", domain_b)]).1,
         (run_domains_list env_ok [("b", domain_b)]).2) :=
  ⟨(claim_c6_disabled_skipped env_ok cfg_disabled "c" domain_off
      [("b", domain_b)]).1 rfl,
   (claim_c6_disabled_skipped env_ok cfg_disabled "c" domain_off
      [("b", domain_b)]).2.1 rfl⟩

/-- C7: for an enabled schedule with no explicit cron expression and
interval `weekly`, `_get_cron_trigger` emits the trigger for the weekday
number of `day_of_week`; the mapping depends only on the lowercased name
(case-insensitive), sends the seven weekday names to 0=Monday … 6=Sunday,
and sends every unrecognized name to 0 (Monday) instead of raising. -/
theorem claim_c7_weekly_weekday (cfg : GlobalConfig) (name : String)
    (d : DomainConfig) (hl : lookup_domain cfg.domains name = some d)
    (hen : d.schedule.enabled = true) (hc : d.schedule.cron = "")
    (hi : d.schedule.interval = "weekly") :
    get_cron_trigger name cfg
      = some (.cron (some (weekday_num d.schedule.day_of_week)) none
          d.schedule.hour d.schedule.minute) ∧
    (∀ w v : String, py_lower w = py_lower v → weekday_num w = weekday_num v) ∧
    (weekday_num "monday" = 0 ∧ weekday_num "tuesday" = 1 ∧
     weekday_num "wednesday" = 2 ∧ weekday_num "thursday" = 3 ∧
     weekday_num "friday" = 4 ∧ weekday_num "saturday" = 5 ∧
     weekday_num "sunday" = 6) ∧
    (∀ w : String,
      py_lower w ∉ (["monday", "tuesday", "wednesday", "thursday", "friday",
        "saturday", "sunday"] : List String) → weekday_num w = 0) := by
  refine ⟨?_, ?_, by decide, ?_⟩
  · unfold get_cron_trigger
    rw [hl]
    simp [hen, hc, hi]
  · intro w v h
    unfold weekday_num
    rw [h]
  · intro w hw
    simp only [List.mem_cons, List.not_mem_nil, or_false, not_or] at hw
    obtain ⟨h1, h2, h3, h4, h5, h6, h7⟩ := hw
    unfold weekday_num
    simp [h1, h2, h3, h4, h5, h6, h7]

/-- C7 witness: `day_of_week = "Wednesday"` maps to weekday 2, and an
unrecognized name maps to 0. -/
theorem claim_c7_witness :
    get_cron_trigger "s" cfg_sched
      = some (.cron (some (weekday_num domain_sched.schedule.day_of_week))
          none domain_sched.schedule.hour domain_sched.schedule.minute) ∧
    weekday_num "Wednesday" = weekday_num "wednesday" ∧
    weekday_num "caturday" = 0 :=
  ⟨(claim_c7_weekly_weekday cfg_sched "s" domain_sched (by decide)
      rfl rfl rfl).1,
   (claim_c7_weekly_weekday cfg_sched "s" domain_sched (by decide)
      rfl rfl rfl).2.1 "Wednesday" "wednesday" (by decide),
   (claim_c7_weekly_weekday cfg_sched "s" domain_sched (by decide)
      rfl rfl rfl).2.2.2 "caturday" (by decide)⟩

/-- C8: `schedule_domains` raises its configuration error exactly when no
domain produces a trigger (before any scheduler starts, with zero jobs
registered); otherwise it returns normally with exactly one job per
trigger-producing domain. -/
theorem claim_c8_schedule_fail_fast (cfg : GlobalConfig) :
    (schedule_domains cfg
        = .error "No domains with schedules enabled found in config"
      ↔ ∀ p ∈ cfg.domains, get_cron_trigger p.1 cfg = none) ∧
    ∀ jobs, schedule_domains cfg = .ok jobs →
      jobs = cfg.domains.filterMap
        (fun p => (get_cron_trigger p.1 cfg).map (make_job p.1 p.2)) ∧
      jobs.length = (cfg.domains.filter
        (fun p => (get_cron_trigger p.1 cfg).isSome)).length ∧
      jobs ≠ [] := by
  have hnil : cfg.domains.filterMap
      (fun p => (get_cron_trigger p.1 cfg).map (make_job p.1 p.2)) = []
      ↔ ∀ p ∈ cfg.domains, get_cron_trigger p.1 cfg = none := by
    rw [List.filterMap_eq_nil_iff]
    constructor
    · intro h p hp
      exact Option.map_eq_none'.mp (h p hp)
    · intro h p hp
      rw [h p hp]
      rfl
  constructor
  · unfold schedule_domains
    dsimp only
    split
    · next hlen =>
      simp only [true_iff]
      exact hnil.mp (List.length_eq_zero.mp hlen)
    · next hlen =>
      constructor
      · intro h
        exact Except.noConfusion h
      · intro hall
        exact absurd (List.length_eq_zero.mpr (hnil.mpr hall)) hlen
  · intro jobs hok
    unfold schedule_domains at hok
    dsimp only at hok
    split at hok
    · exact Except.noConfusion hok
    · next hlen =>
      simp only [Except.ok.injEq] at hok
      subst hok
      refine ⟨rfl, ?_, ?_⟩
      · rw [length_filterMap_eq_length_filter]
        have hfc : ∀ p ∈ cfg.domains,
            ((get_cron_trigger p.1 cfg).map (make_job p.1 p.2)).isSome
              = (get_cron_trigger p.1 cfg).isSome := by
          intro p _
          exact Option.isSome_map'
        rw [List.filter_congr hfc]
      · intro h
        exact hlen (by rw [h]; rfl)

/-- C8 witness: `cfg_sched` has one trigger-producing domain, so
scheduling returns normally with that single job. -/
theorem claim_c8_witness :
    ([⟨"domain_s", "Domain: S", Trigger.cron (some 2) none 9 0,
        ["s"], 60, true⟩] : List Job) ≠ [] :=
  ((claim_c8_schedule_fail_fast cfg_sched).2
      [⟨"domain_s", "Domain: S", Trigger.cron (some 2) none 9 0,
        ["s"], 60, true⟩]
      rfl).2.2

end Fcis
